import Mathlib

/-!
Verification development for the `web-oxy` currency-conversion backend
(`Currency/backend/smart_convert_engine.py` and the `FastCacheManager` of
`Currency/backend/main_production.py`).

Shallow embedding conventions:
* Python floats are modelled as `ℚ` (the claims are about control flow and
  exact arithmetic relations, not float rounding).
* `time.time()` is an explicit parameter `now : ℚ`; the elapsed latency
  recorded in a result is an explicit parameter `lat : ℚ` (a single value per
  `convert` call).
* The upstream HTTP providers are modelled as oracle functions inside `Env`;
  a `none` answer covers every non-success outcome (non-2xx, malformed
  payload, explicit failure flag, network error) — the Python helpers
  `_fetch_exchangerates_api` / `_fetch_coinmarketcap_api` swallow all their
  exceptions and return `None` in those cases.
* Cache values are modelled as the stored rate (`ℚ`): every engine write is a
  dict `{"rate": r}`; the health-check round-trip payload `{'test': True}` is
  modelled by the value `1` (only its truthiness is ever used, and a stored
  dict is always truthy).
* The embedding is exception-free: the cache backend and the providers never
  raise (the provider adapters never let an exception escape in the source
  either).
-/

namespace WebOxy

/-- The `ConversionMethod` enum of `smart_convert_engine.py` (lines 40-48). -/
inductive ConversionMethod
  | direct
  | fx_direct
  | usd_bridge
  | usdt_bridge
  | eur_bridge
  | btc_bridge
  | fallback
  | cached
  deriving DecidableEq, Repr

/-- The mutable `self.stats` counters of `SmartConvertEngine` (lines 98-121).
`error_types` is omitted: both provider adapters swallow their own
exceptions, so `_track_error` is unreachable in the exception-free model. -/
structure Stats where
  total_conversions : Nat
  successful_conversions : Nat
  cache_hits : Nat
  api_calls : Nat
  fallback_uses : Nat
  avg_latency : ℚ
  exchangerates_api : Nat
  coinmarketcap_api : Nat
  crypto_to_fiat : Nat
  fiat_to_crypto : Nat
  crypto_to_crypto : Nat
  fiat_to_fiat : Nat
  deriving DecidableEq, Repr

/-- All-zero initial statistics. -/
def Stats.start : Stats :=
  ⟨0, 0, 0, 0, 0, 0, 0, 0, 0, 0, 0, 0⟩

/-- The in-memory `FastCacheManager` of `main_production.py` (lines 205-248):
`self.cache` and `self.timestamps` are two dicts over the same keys, modelled
as one association list of `(key, value, timestamp)`. -/
structure FastCache where
  entries : List (String × ℚ × ℚ)
  deriving DecidableEq, Repr

/-- Remove every binding of `k` (a Python dict holds at most one). -/
def eraseKey (k : String) : List (String × ℚ × ℚ) → List (String × ℚ × ℚ)
  | [] => []
  | e :: es => if e.1 = k then eraseKey k es else e :: eraseKey k es

/-- `FastCacheManager._cleanup_expired`: drop entries with
`current_time - ts >= CACHE_TTL`. -/
def cleanupExpired (gttl now : ℚ) (es : List (String × ℚ × ℚ)) :
    List (String × ℚ × ℚ) :=
  es.filter fun e => decide (now - e.2.2 < gttl)

/-- `FastCacheManager.get`: a hit requires `time.time() - ts < CACHE_TTL`
(`gttl` is the single global `CACHE_TTL` constant); a stale entry is deleted
as it is discovered.  Returns the answer together with the mutated cache. -/
def FastCache.get (c : FastCache) (gttl now : ℚ) (k : String) :
    Option ℚ × FastCache :=
  match c.entries.lookup k with
  | some (v, ts) =>
      if now - ts < gttl then (some v, c) else (none, ⟨eraseKey k c.entries⟩)
  | none => (none, c)

/-- `FastCacheManager.set`: stores `(key, value, time.time())`.  The `ttl`
argument is accepted but never used — expiry is always governed by the global
`CACHE_TTL`, exactly as in the source.  When the resulting size is a multiple
of 100 the periodic cleanup runs. -/
def FastCache.set (c : FastCache) (gttl now : ℚ) (k : String) (v : ℚ)
    (ttl : ℚ) : FastCache :=
  if (((k, v, now) :: eraseKey k c.entries).length % 100 == 0) then
    ⟨cleanupExpired gttl now ((k, v, now) :: eraseKey k c.entries)⟩
  else ⟨(k, v, now) :: eraseKey k c.entries⟩

/-- The engine's environment: asset catalogs, configured API credentials, the
two upstream provider oracles and the global cache TTL (`CACHE_TTL` of
`main_production.py`, 300 by default but configurable). -/
structure Env where
  cryptoAssets : List String
  fiatAssets : List String
  hasExchangeKey : Bool
  hasCmcKey : Bool
  exchangeRate : String → String → Option ℚ
  cmcQuote : String → String → Option ℚ
  cacheTTL : ℚ

/-- Membership in the crypto catalog. -/
def Env.isCrypto (e : Env) (s : String) : Bool :=
  e.cryptoAssets.contains s

/-- Membership in the fiat catalog. -/
def Env.isFiat (e : Env) (s : String) : Bool :=
  e.fiatAssets.contains s

/-- `base in (self.crypto_assets | self.fiat_assets)`. -/
def Env.supported (e : Env) (s : String) : Bool :=
  e.isCrypto s || e.isFiat s

/-- The full engine state threaded through a conversion: the shared cache
manager and the stats counters. -/
structure EState where
  cache : FastCache
  stats : Stats

/-- `_fetch_exchangerates_api` (lines 558-587): without a key it returns
`None` before any network access; otherwise the oracle answers with the
`conversion_rate` or `none` for any failure. -/
def fetchExchangeratesApi (env : Env) (base quote : String) : Option ℚ :=
  if env.hasExchangeKey then env.exchangeRate base quote else none

/-- `_fetch_coinmarketcap_api` (lines 589-656): without a key, or when none
of the three asset-type combinations matches, it returns `None` before any
network access.  For fiat→crypto the quoted price is inverted; a zero price
raises `ZeroDivisionError` in the source, which the function's own
`except` swallows into `None`. -/
def fetchCoinmarketcapApi (env : Env) (base quote : String) : Option ℚ :=
  if !env.hasCmcKey then none
  else if env.isCrypto base && env.isFiat quote then env.cmcQuote base quote
  else if env.isFiat base && env.isCrypto quote then
    match env.cmcQuote quote base with
    | some p => if p = 0 then none else some (1 / p)
    | none => none
  else if env.isCrypto base && env.isCrypto quote then env.cmcQuote base quote
  else none

/-- Does the CMC adapter reach its network call for this pair?  (True iff the
key is configured and one of its three asset-type branches matches.) -/
def cmcReachesNetwork (env : Env) (base quote : String) : Bool :=
  env.hasCmcKey &&
    ((env.isCrypto base && env.isFiat quote) ||
     (env.isFiat base && env.isCrypto quote) ||
     (env.isCrypto base && env.isCrypto quote))

/-- `_fetch_rate_data` (lines 506-555).  Returns the `close` value (`none`
when every applicable provider failed), the updated stats, and the list of
upstream providers actually contacted over the network (for the
no-network-access claims).  An unsupported symbol short-circuits before the
`api_calls` increment. -/
def fetchRateData (env : Env) (stats : Stats) (base quote : String) :
    Option ℚ × Stats × List String :=
  if !(env.supported base) || !(env.supported quote) then (none, stats, [])
  else
    let s1 := { stats with api_calls := stats.api_calls + 1 }
    let ffBranch := env.isFiat base && env.isFiat quote
    let s2 :=
      if ffBranch then { s1 with fiat_to_fiat := s1.fiat_to_fiat + 1 } else s1
    let erCalls : List String :=
      if ffBranch && env.hasExchangeKey then ["exchangerates_api"] else []
    let erResult :=
      if ffBranch then fetchExchangeratesApi env base quote else none
    match erResult with
    | some c =>
        (some c, { s2 with exchangerates_api := s2.exchangerates_api + 1 },
         erCalls)
    | none =>
        if env.isCrypto base || env.isCrypto quote then
          let s3 :=
            if env.isCrypto base && env.isFiat quote then
              { s2 with crypto_to_fiat := s2.crypto_to_fiat + 1 }
            else if env.isFiat base && env.isCrypto quote then
              { s2 with fiat_to_crypto := s2.fiat_to_crypto + 1 }
            else
              { s2 with crypto_to_crypto := s2.crypto_to_crypto + 1 }
          let cmcCalls : List String :=
            if cmcReachesNetwork env base quote then ["coinmarketcap_api"]
            else []
          match fetchCoinmarketcapApi env base quote with
          | some c =>
              (some c,
               { s3 with coinmarketcap_api := s3.coinmarketcap_api + 1 },
               erCalls ++ cmcCalls)
          | none => (none, s3, erCalls ++ cmcCalls)
        else (none, s2, erCalls)

/-- The "Try inverse pair" block of `_get_conversion_rate` (lines 490-499):
fetch `quote/base`, and when the close is a truthy non-zero value cache and
return its reciprocal; otherwise the helper falls through to `None`. -/
def inversePairStep (env : Env) (now : ℚ) (cache : FastCache) (stats : Stats)
    (base quote key : String) : Option ℚ × EState :=
  let f := fetchRateData env stats quote base
  match f.1 with
  | some c2 =>
      if c2 = 0 then (none, ⟨cache, f.2.1⟩)
      else
        (some (1 / c2),
         ⟨FastCache.set cache env.cacheTTL now key (1 / c2) 60, f.2.1⟩)
  | none => (none, ⟨cache, f.2.1⟩)

/-- `_get_conversion_rate` (lines 471-504): cache key `rate:BASE:QUOTE`,
then the direct fetch, then the inverse fetch; whichever direction produced a
truthy close is cached with `ttl=60`. -/
def getConversionRate (env : Env) (now : ℚ) (st : EState)
    (base quote : String) : Option ℚ × EState :=
  let key := "rate:" ++ base ++ ":" ++ quote
  let g := FastCache.get st.cache env.cacheTTL now key
  match g.1 with
  | some r => (some r, { st with cache := g.2 })
  | none =>
      let f := fetchRateData env st.stats base quote
      match f.1 with
      | some c =>
          if c = 0 then inversePairStep env now g.2 f.2.1 base quote key
          else
            (some c,
             ⟨FastCache.set g.2 env.cacheTTL now key c 60, f.2.1⟩)
      | none => inversePairStep env now g.2 f.2.1 base quote key

/-- The `ConversionResult` dataclass (lines 50-61).  `bridge_rates` defaults
to `None`, `error` to `None`, `cached` to `False`, as in the source. -/
structure ConversionResult where
  pair : String
  method : ConversionMethod
  rate : Option ℚ
  amount : Option ℚ
  confidence : ℚ
  latency_ms : ℚ
  bridge_rates : Option (List (String × ℚ)) := none
  error : Option String := none
  cached : Bool := false
  deriving DecidableEq, Repr

/-- `_try_direct_conversion` (lines 259-309). -/
def tryDirectConversion (env : Env) (now lat : ℚ) (st : EState)
    (base quote : String) (amount : ℚ) : ConversionResult × EState :=
  let key := "direct:" ++ base ++ ":" ++ quote
  let g := FastCache.get st.cache env.cacheTTL now key
  match g.1 with
  | some r =>
      ({ pair := base ++ "/" ++ quote, method := .direct, rate := some r,
         amount := some (amount * r), confidence := 1, latency_ms := lat,
         cached := true },
       ⟨g.2, { st.stats with cache_hits := st.stats.cache_hits + 1 }⟩)
  | none =>
      let f := fetchRateData env st.stats base quote
      match f.1 with
      | some c =>
          if c = 0 then
            ({ pair := base ++ "/" ++ quote, method := .direct, rate := none,
               amount := none, confidence := 0, latency_ms := lat,
               error := some "Direct conversion failed" }, ⟨g.2, f.2.1⟩)
          else
            ({ pair := base ++ "/" ++ quote, method := .direct, rate := some c,
               amount := some (amount * c), confidence := 1,
               latency_ms := lat },
             ⟨FastCache.set g.2 env.cacheTTL now key c 60, f.2.1⟩)
      | none =>
          ({ pair := base ++ "/" ++ quote, method := .direct, rate := none,
             amount := none, confidence := 0, latency_ms := lat,
             error := some "Direct conversion failed" }, ⟨g.2, f.2.1⟩)

/-- `self.pivots` (line 124). -/
def pivots : List String := ["USD", "USDT", "EUR", "BTC"]

/-- `ConversionMethod(f"via_{pivot}")` for the pivots actually iterated; the
final arm is unreachable because `pivots` holds exactly these four symbols. -/
def methodForPivot : String → ConversionMethod
  | "USD" => .usd_bridge
  | "USDT" => .usdt_bridge
  | "EUR" => .eur_bridge
  | "BTC" => .btc_bridge
  | _ => .usd_bridge

/-- The `for pivot in self.pivots` loop of `_try_single_pivot_conversion`
(lines 311-357), including the terminal failure result. -/
def singlePivotLoop (env : Env) (now lat : ℚ) (base quote : String)
    (amount : ℚ) : List String → EState → ConversionResult × EState
  | [], st =>
      ({ pair := base ++ "/" ++ quote, method := .usd_bridge, rate := none,
         amount := none, confidence := 0, latency_ms := lat,
         error := some "Single pivot conversion failed" }, st)
  | p :: rest, st =>
      if p = base || p = quote then
        singlePivotLoop env now lat base quote amount rest st
      else
        let r1 := getConversionRate env now st base p
        match r1.1 with
        | none => singlePivotLoop env now lat base quote amount rest r1.2
        | some a =>
            let r2 := getConversionRate env now r1.2 p quote
            match r2.1 with
            | none => singlePivotLoop env now lat base quote amount rest r2.2
            | some b =>
                ({ pair := base ++ "/" ++ quote, method := methodForPivot p,
                   rate := some (a * b), amount := some (amount * (a * b)),
                   confidence := 0.8, latency_ms := lat,
                   bridge_rates :=
                     some [(base ++ "/" ++ p, a), (p ++ "/" ++ quote, b)] },
                 r2.2)

/-- `_try_single_pivot_conversion` (lines 311-357). -/
def trySinglePivotConversion (env : Env) (now lat : ℚ) (st : EState)
    (base quote : String) (amount : ℚ) : ConversionResult × EState :=
  singlePivotLoop env now lat base quote amount pivots st

/-- `pivot_combinations` (lines 374-376). -/
def pivotCombinations : List (String × String) :=
  [("USD", "BTC"), ("USDT", "BTC"), ("USD", "ETH"), ("USDT", "ETH")]

/-- The `for pivot1, pivot2 in pivot_combinations` loop of
`_try_double_pivot_conversion` (lines 378-424), including the terminal
failure result.  A successful combination returns
`method=ConversionMethod.FALLBACK` (line 400). -/
def doublePivotLoop (env : Env) (now lat : ℚ) (base quote : String)
    (amount : ℚ) : List (String × String) → EState → ConversionResult × EState
  | [], st =>
      ({ pair := base ++ "/" ++ quote, method := .fallback, rate := none,
         amount := none, confidence := 0, latency_ms := lat,
         error := some "Double pivot conversion failed" }, st)
  | (p1, p2) :: rest, st =>
      if p1 = base || p1 = quote || p2 = base || p2 = quote then
        doublePivotLoop env now lat base quote amount rest st
      else
        let r1 := getConversionRate env now st base p1
        match r1.1 with
        | none => doublePivotLoop env now lat base quote amount rest r1.2
        | some a =>
            let r2 := getConversionRate env now r1.2 p1 p2
            match r2.1 with
            | none => doublePivotLoop env now lat base quote amount rest r2.2
            | some b =>
                let r3 := getConversionRate env now r2.2 p2 quote
                match r3.1 with
                | none =>
                    doublePivotLoop env now lat base quote amount rest r3.2
                | some c =>
                    ({ pair := base ++ "/" ++ quote, method := .fallback,
                       rate := some (a * b * c),
                       amount := some (amount * (a * b * c)),
                       confidence := 0.6, latency_ms := lat,
                       bridge_rates :=
                         some [(base ++ "/" ++ p1, a), (p1 ++ "/" ++ p2, b),
                               (p2 ++ "/" ++ quote, c)] },
                     r3.2)

/-- `_try_double_pivot_conversion` (lines 359-424): gated to pairs where both
assets are crypto. -/
def tryDoublePivotConversion (env : Env) (now lat : ℚ) (st : EState)
    (base quote : String) (amount : ℚ) : ConversionResult × EState :=
  if !(env.isCrypto base && env.isCrypto quote) then
    ({ pair := base ++ "/" ++ quote, method := .fallback, rate := none,
       amount := none, confidence := 0, latency_ms := lat,
       error := some "Double pivot not applicable" }, st)
  else doublePivotLoop env now lat base quote amount pivotCombinations st

/-- The `mock_rates` table of `_generate_estimated_rate` (lines 679-703). -/
def mockRates : List (String × ℚ) :=
  [("BTC/USD", 63420.0), ("ETH/USD", 2580.0), ("USDT/USD", 1.0),
   ("BNB/USD", 582.0), ("SOL/USD", 142.5), ("USDC/USD", 1.0),
   ("XRP/USD", 0.5891), ("DOGE/USD", 0.1058), ("ADA/USD", 0.3512),
   ("TRX/USD", 0.1634), ("AVAX/USD", 26.84), ("SHIB/USD", 0.00001425),
   ("TON/USD", 5.42), ("LINK/USD", 11.23), ("DOT/USD", 4.18),
   ("MATIC/USD", 0.3847), ("BCH/USD", 320.5), ("ICP/USD", 7.89),
   ("UNI/USD", 6.78), ("LTC/USD", 66.2), ("NEAR/USD", 4.12),
   ("APT/USD", 8.95), ("STX/USD", 1.89), ("XLM/USD", 0.0934),
   ("ATOM/USD", 4.23), ("HBAR/USD", 0.0512), ("FIL/USD", 3.67),
   ("VET/USD", 0.0198), ("ETC/USD", 18.9), ("ALGO/USD", 0.1234),
   ("ETH/ADA", 5173.37), ("BTC/ETH", 24.58), ("BTC/ADA", 180584.0),
   ("ETH/DOGE", 24386.0), ("SOL/ADA", 405.8), ("LINK/DOT", 2.686),
   ("UNI/MATIC", 17.63),
   ("USD/EUR", 0.9156), ("USD/GBP", 0.7512), ("USD/JPY", 149.85),
   ("USD/CAD", 1.3542), ("USD/AUD", 1.4789), ("USD/CHF", 0.8456),
   ("USD/CNY", 7.0892), ("USD/KRW", 1337.5), ("EUR/USD", 1.0922),
   ("GBP/USD", 1.3312), ("JPY/USD", 0.006673), ("CAD/USD", 0.7384)]

/-- The asset-type default block of `_generate_estimated_rate`
(lines 722-730): crypto↔crypto 0.5, crypto→fiat 1000, fiat→crypto 0.001,
anything else (including symbols in neither catalog) 1.0. -/
def estimatedDefaultRate (env : Env) (base quote : String) : Option ℚ :=
  if env.isCrypto base && env.isCrypto quote then some 0.5
  else if env.isCrypto base then some 1000.0
  else if env.isCrypto quote then some 0.001
  else some 1.0

/-- `_generate_estimated_rate` (lines 675-730): exact pair, inverse pair, USD
bridge, then a default by asset-type combination.  The Python truthiness
check `if base_usd and quote_usd and quote_usd != 0` requires both bridge
rates to be present and non-zero. -/
def generateEstimatedRate (env : Env) (base quote : String) : Option ℚ :=
  match mockRates.lookup (base ++ "/" ++ quote) with
  | some r => some r
  | none =>
      match mockRates.lookup (quote ++ "/" ++ base) with
      | some r => some (1 / r)
      | none =>
          match mockRates.lookup (base ++ "/USD"),
                mockRates.lookup (quote ++ "/USD") with
          | some b, some q =>
              if b ≠ 0 ∧ q ≠ 0 then some (b / q)
              else estimatedDefaultRate env base quote
          | some _, none => estimatedDefaultRate env base quote
          | none, some _ => estimatedDefaultRate env base quote
          | none, none => estimatedDefaultRate env base quote

/-- `_fallback_conversion` (lines 426-469): stale-cache branch (confidence
0.3), estimated branch (confidence 0.2, cached with `ttl=3600`), terminal
failure.  The Python truthiness test `if estimated_rate:` rejects `None` and
`0`. -/
def fallbackConversion (env : Env) (now lat : ℚ) (st : EState)
    (base quote : String) (amount : ℚ) : ConversionResult × EState :=
  let key := "fallback:" ++ base ++ ":" ++ quote
  let g := FastCache.get st.cache env.cacheTTL now key
  match g.1 with
  | some r =>
      ({ pair := base ++ "/" ++ quote, method := .cached, rate := some r,
         amount := some (amount * r), confidence := 0.3, latency_ms := lat,
         cached := true }, ⟨g.2, st.stats⟩)
  | none =>
      match generateEstimatedRate env base quote with
      | some er =>
          if er = 0 then
            ({ pair := base ++ "/" ++ quote, method := .fallback,
               rate := none, amount := none, confidence := 0,
               latency_ms := lat,
               error := some "No conversion method available" },
             ⟨g.2, st.stats⟩)
          else
            ({ pair := base ++ "/" ++ quote, method := .fallback,
               rate := some er, amount := some (amount * er),
               confidence := 0.2, latency_ms := lat,
               error := some "Using estimated rate" },
             ⟨FastCache.set g.2 env.cacheTTL now key er 3600, st.stats⟩)
      | none =>
          ({ pair := base ++ "/" ++ quote, method := .fallback, rate := none,
             amount := none, confidence := 0, latency_ms := lat,
             error := some "No conversion method available" },
           ⟨g.2, st.stats⟩)

/-- The stats block at the end of `convert` (lines 235-248), executed only
when control reaches strategy 4: success/cached/fallback counters plus the
running-mean latency update with `n = total_conversions`. -/
def finalizeStats (r : ConversionResult) (s : Stats) : Stats :=
  let s1 :=
    if r.rate.isSome then
      { s with successful_conversions := s.successful_conversions + 1 }
    else s
  let s2 := if r.cached then { s1 with cache_hits := s1.cache_hits + 1 } else s1
  let s3 :=
    if r.method = .fallback then
      { s2 with fallback_uses := s2.fallback_uses + 1 }
    else s2
  { s3 with
    avg_latency :=
      (s3.avg_latency * ((s3.total_conversions : ℚ) - 1) + r.latency_ms) /
        (s3.total_conversions : ℚ) }

/-- `convert` (lines 195-257): uppercase both symbols, count the call, handle
the same-asset degenerate case, then run the four strategies in order; only
a call that reaches strategy 4 runs the trailing stats block. -/
def convert (env : Env) (now lat : ℚ) (st : EState) (base0 quote0 : String)
    (amount : ℚ) : ConversionResult × EState :=
  let base := base0.toUpper
  let quote := quote0.toUpper
  let st0 : EState :=
    { st with
      stats :=
        { st.stats with
          total_conversions := st.stats.total_conversions + 1 } }
  if base = quote then
    ({ pair := base ++ "/" ++ quote, method := .direct, rate := some 1,
       amount := some amount, confidence := 1, latency_ms := lat }, st0)
  else
    let d := tryDirectConversion env now lat st0 base quote amount
    if d.1.rate.isSome then d
    else
      let s := trySinglePivotConversion env now lat d.2 base quote amount
      if s.1.rate.isSome then s
      else
        let t := tryDoublePivotConversion env now lat s.2 base quote amount
        if t.1.rate.isSome then t
        else
          let f := fallbackConversion env now lat t.2 base quote amount
          (f.1, { f.2 with stats := finalizeStats f.1 f.2.stats })

/-- One entry of the `test_conversions` list built by `health_check`
(lines 855-871). -/
structure BatteryEntry where
  pair : String
  success : Bool
  method : ConversionMethod
  confidence : ℚ
  latency_ms : ℚ
  deriving DecidableEq, Repr

/-- The fields of the `health_check` payload the claims are about. -/
structure HealthStatus where
  status : String
  cacheManager : String
  issues : List String
  testConversions : List BatteryEntry
  deriving DecidableEq, Repr

/-- `health_check` (lines 809-880): cache write/read round-trip (the
`{'test': True}` payload is modelled by the value 1 — only its truthiness is
used), then the fixed conversion battery; `issues` is appended to only inside
`except` branches, which are unreachable in the exception-free model, so the
trailing check `if health_status['issues']:` always leaves the status
`healthy`. -/
def healthCheck (env : Env) (now lat : ℚ) (st : EState) :
    HealthStatus × EState :=
  let issues : List String := []
  let c1 := FastCache.set st.cache env.cacheTTL now "health_check" 1 10
  let g := FastCache.get c1 env.cacheTTL now "health_check"
  let cacheManagerStatus := if g.1.isSome then "operational" else "failed"
  let st1 : EState := { st with cache := g.2 }
  let a := convert env now lat st1 "BTC" "USD" 1
  let b := convert env now lat a.2 "USD" "EUR" 1
  let c := convert env now lat b.2 "ETH" "ADA" 1
  let entry := fun (p : String) (r : ConversionResult) =>
    ({ pair := p, success := r.rate.isSome, method := r.method,
       confidence := r.confidence, latency_ms := r.latency_ms } : BatteryEntry)
  let tests := [entry "BTC/USD" a.1, entry "USD/EUR" b.1, entry "ETH/ADA" c.1]
  let status := if issues.isEmpty then "healthy" else "degraded"
  ({ status := status, cacheManager := cacheManagerStatus, issues := issues,
     testConversions := tests }, c.2)

/-! ### Concrete fixtures used by witnesses and counterexamples -/

/-- Empty cache, zeroed stats. -/
def emptyState : EState := ⟨⟨[]⟩, Stats.start⟩

/-- Fiat-only environment whose provider knows exactly the USD/EUR rate 2. -/
def envFiatDirect : Env :=
  { cryptoAssets := [], fiatAssets := ["USD", "EUR"], hasExchangeKey := true,
    hasCmcKey := false,
    exchangeRate := fun b q =>
      if b == "USD" && q == "EUR" then some 2 else none,
    cmcQuote := fun _ _ => none, cacheTTL := 300 }

/-- Crypto environment whose CMC oracle answers 2 for every quote; used to
drive the double-pivot strategy to success. -/
def envCryptoAll2 : Env :=
  { cryptoAssets := ["SOL", "ADA", "BTC", "ETH"], fiatAssets := ["USD", "EUR"],
    hasExchangeKey := false, hasCmcKey := true,
    exchangeRate := fun _ _ => none,
    cmcQuote := fun _ _ => some 2, cacheTTL := 300 }

/-- Fiat environment where EUR/GBP has no direct feed but both USD legs
exist, so conversion succeeds only through the USD pivot. -/
def envPivotOnly : Env :=
  { cryptoAssets := [], fiatAssets := ["USD", "EUR", "GBP"],
    hasExchangeKey := true, hasCmcKey := false,
    exchangeRate := fun b q =>
      if b == "EUR" && q == "USD" then some 2
      else if b == "USD" && q == "GBP" then some 3 else none,
    cmcQuote := fun _ _ => none, cacheTTL := 300 }

/-- Fiat environment whose provider quotes USD/EUR at 7 (used together with a
pre-existing cache entry that stores 5). -/
def envStaleQuote : Env :=
  { cryptoAssets := [], fiatAssets := ["USD", "EUR"], hasExchangeKey := true,
    hasCmcKey := false,
    exchangeRate := fun b q =>
      if b == "USD" && q == "EUR" then some 7 else none,
    cmcQuote := fun _ _ => none, cacheTTL := 300 }

/-- State holding a `direct:USD:EUR` cache entry of rate 5 written at time
-299: still alive at time 0, expired at time 2 (global TTL 300). -/
def staleState : EState :=
  ⟨⟨[("direct:USD:EUR", 5, -299)]⟩, Stats.start⟩

/-- Environment with empty catalogs, no providers, and a global cache TTL of
0 (the `CACHE_TTL_SECONDS` environment variable is attacker-controllable
configuration; 0 makes every cache entry expire immediately). -/
def envZeroTTL : Env :=
  { cryptoAssets := [], fiatAssets := [], hasExchangeKey := false,
    hasCmcKey := false, exchangeRate := fun _ _ => none,
    cmcQuote := fun _ _ => none, cacheTTL := 0 }

/-- Environment with empty catalogs and no providers, standard TTL. -/
def envBare : Env :=
  { cryptoAssets := [], fiatAssets := [], hasExchangeKey := false,
    hasCmcKey := false, exchangeRate := fun _ _ => none,
    cmcQuote := fun _ _ => none, cacheTTL := 300 }

/-- State holding a fresh `rate:EUR:USD` bridge-leg cache entry of value 9
written at time 0. -/
def hitState : EState := ⟨⟨[("rate:EUR:USD", 9, 0)]⟩, Stats.start⟩

/-! ### Cache lemmas -/

theorem lookup_eraseKey (k : String) :
    ∀ es : List (String × ℚ × ℚ), (eraseKey k es).lookup k = none := by
  intro es
  induction es with
  | nil => rfl
  | cons e es ih =>
      by_cases h : e.1 = k
      · simpa [eraseKey, h] using ih
      · simp only [eraseKey, if_neg h, List.lookup]
        have : (k == e.1) = false := by
          simp [beq_iff_eq]
          exact fun hk => h hk.symm
        simp [this, ih]

theorem lookup_filter_none {k : String} {es : List (String × ℚ × ℚ)}
    (p : String × ℚ × ℚ → Bool) (h : es.lookup k = none) :
    (es.filter p).lookup k = none := by
  induction es with
  | nil => rfl
  | cons e es ih =>
      simp only [List.lookup] at h
      rcases hk : (k == e.1) with _ | _
      · rw [hk] at h
        by_cases hp : p e
        · simp [List.filter, hp, List.lookup, hk, ih h]
        · simp [List.filter, hp, ih h]
      · rw [hk] at h
        exact absurd h (by simp)

theorem lookup_cons_self (k : String) (v : ℚ × ℚ)
    (es : List (String × ℚ × ℚ)) :
    List.lookup k ((k, v) :: es) = some v := by
  simp [List.lookup]

theorem set_lookup_pos {c : FastCache} {g t : ℚ} {k : String} {v ttl : ℚ}
    (hg : 0 < g) :
    (FastCache.set c g t k v ttl).entries.lookup k = some (v, t) := by
  have hhead : (decide (t - t < g)) = true := by simp [sub_self, hg]
  unfold FastCache.set
  split
  · show List.lookup k
      (cleanupExpired g t ((k, v, t) :: eraseKey k c.entries)) = some (v, t)
    unfold cleanupExpired
    simp only [List.filter_cons, hhead, if_true]
    exact lookup_cons_self k (v, t) _
  · exact lookup_cons_self k (v, t) _

theorem set_lookup_cases (c : FastCache) (g t : ℚ) (k : String) (v ttl : ℚ) :
    (FastCache.set c g t k v ttl).entries.lookup k = some (v, t) ∨
      (FastCache.set c g t k v ttl).entries.lookup k = none := by
  unfold FastCache.set
  split
  · show List.lookup k
        (cleanupExpired g t ((k, v, t) :: eraseKey k c.entries)) = some (v, t) ∨
      List.lookup k
        (cleanupExpired g t ((k, v, t) :: eraseKey k c.entries)) = none
    unfold cleanupExpired
    simp only [List.filter_cons]
    rcases hhead : (decide (t - t < g)) with _ | _
    · right
      simp only [hhead, Bool.false_eq_true, if_false]
      exact lookup_filter_none _ (lookup_eraseKey k c.entries)
    · left
      simp only [hhead, if_true]
      exact lookup_cons_self k (v, t) _
  · exact Or.inl (lookup_cons_self k (v, t) _)

theorem get_set_fresh {c : FastCache} {g t t' : ℚ} {k : String} {v ttl : ℚ}
    (h0 : 0 ≤ t' - t) (h1 : t' - t < g) :
    FastCache.get (FastCache.set c g t k v ttl) g t' k =
      (some v, FastCache.set c g t k v ttl) := by
  have hg : 0 < g := lt_of_le_of_lt h0 h1
  unfold FastCache.get
  rw [set_lookup_pos hg]
  simp only [if_pos h1]

theorem get_set_stale {c : FastCache} {g t t' : ℚ} {k : String} {v ttl : ℚ}
    (h : g ≤ t' - t) :
    (FastCache.get (FastCache.set c g t k v ttl) g t' k).1 = none ∧
      (FastCache.get (FastCache.set c g t k v ttl) g t' k).2.entries.lookup k
        = none := by
  have hnot : ¬(t' - t < g) := not_lt.mpr h
  unfold FastCache.get
  rcases set_lookup_cases c g t k v ttl with hl | hl
  · rw [hl]
    simp only [if_neg hnot]
    exact ⟨by trivial, lookup_eraseKey k _⟩
  · rw [hl]
    exact ⟨by trivial, hl⟩

theorem get_set_now (c : FastCache) (g t : ℚ) (k : String) (v ttl : ℚ) :
    (FastCache.get (FastCache.set c g t k v ttl) g t k).1 =
      if 0 < g then some v else none := by
  by_cases hg : 0 < g
  · rw [if_pos hg, get_set_fresh (by simp) (by simpa using hg)]
  · rw [if_neg hg]
    exact (get_set_stale (by simpa using not_lt.mp hg)).1

/-! ### Estimated-rate lemmas -/

theorem lookup_mem_rates :
    ∀ (l : List (String × ℚ)) (p : String) (r : ℚ),
      l.lookup p = some r → (p, r) ∈ l := by
  intro l
  induction l with
  | nil => intro p r h; cases h
  | cons e es ih =>
      intro p r h
      obtain ⟨k, v⟩ := e
      simp only [List.lookup] at h
      rcases hb : (p == k) with _ | _
      · rw [hb] at h
        exact List.mem_cons_of_mem _ (ih p r h)
      · rw [hb] at h
        have hk : p = k := by simpa [beq_iff_eq] using hb
        have hv : v = r := by simpa using h
        subst hk
        subst hv
        exact List.mem_cons_self _ _

theorem mockRates_pos : ∀ x ∈ mockRates, 0 < x.2 := by
  with_unfolding_all decide

theorem lookup_mockRates_pos {p : String} {r : ℚ}
    (h : mockRates.lookup p = some r) : 0 < r :=
  mockRates_pos _ (lookup_mem_rates mockRates p r h)

theorem estimatedDefaultRate_pos (env : Env) (base quote : String) :
    ∃ r, estimatedDefaultRate env base quote = some r ∧ 0 < r := by
  unfold estimatedDefaultRate
  split
  · exact ⟨_, rfl, by norm_num⟩
  · split
    · exact ⟨_, rfl, by norm_num⟩
    · split
      · exact ⟨_, rfl, by norm_num⟩
      · exact ⟨_, rfl, by norm_num⟩

theorem generateEstimatedRate_pos (env : Env) (base quote : String) :
    ∃ r, generateEstimatedRate env base quote = some r ∧ 0 < r := by
  unfold generateEstimatedRate
  rcases h1 : mockRates.lookup (base ++ "/" ++ quote) with _ | r
  · rcases h2 : mockRates.lookup (quote ++ "/" ++ base) with _ | r
    · rcases h3 : mockRates.lookup (base ++ "/USD") with _ | rb
      · rcases h4 : mockRates.lookup (quote ++ "/USD") with _ | rq
        · exact estimatedDefaultRate_pos env base quote
        · exact estimatedDefaultRate_pos env base quote
      · rcases h4 : mockRates.lookup (quote ++ "/USD") with _ | rq
        · exact estimatedDefaultRate_pos env base quote
        · have hb := lookup_mockRates_pos h3
          have hq := lookup_mockRates_pos h4
          refine ⟨rb / rq, ?_, div_pos hb hq⟩
          show (if rb ≠ 0 ∧ rq ≠ 0 then some (rb / rq)
            else estimatedDefaultRate env base quote) = some (rb / rq)
          rw [if_pos ⟨hb.ne', hq.ne'⟩]
    · exact ⟨1 / r, rfl, one_div_pos.mpr (lookup_mockRates_pos h2)⟩
  · exact ⟨r, rfl, lookup_mockRates_pos h1⟩

/-! ### Strategy result shapes -/

theorem methodForPivot_ne (p : String) :
    methodForPivot p ≠ ConversionMethod.direct ∧
      methodForPivot p ≠ ConversionMethod.cached ∧
      methodForPivot p ≠ ConversionMethod.fallback := by
  unfold methodForPivot
  split <;> exact ⟨by simp, by simp, by simp⟩

theorem tryDirect_shape (env : Env) (now lat : ℚ) (st : EState)
    (B Q : String) (amount : ℚ) :
    let r := (tryDirectConversion env now lat st B Q amount).1
    r.method = ConversionMethod.direct ∧ r.latency_ms = lat ∧
      ((∃ ρ, r.rate = some ρ ∧ r.amount = some (amount * ρ) ∧
          r.confidence = 1) ∨
        (r.rate = none ∧ r.amount = none ∧ r.confidence = 0 ∧
          r.cached = false)) := by
  simp only [tryDirectConversion]
  split
  · exact ⟨rfl, rfl, Or.inl ⟨_, rfl, rfl, rfl⟩⟩
  · split
    · split
      · exact ⟨rfl, rfl, Or.inr ⟨rfl, rfl, rfl, rfl⟩⟩
      · exact ⟨rfl, rfl, Or.inl ⟨_, rfl, rfl, rfl⟩⟩
    · exact ⟨rfl, rfl, Or.inr ⟨rfl, rfl, rfl, rfl⟩⟩

theorem singlePivotLoop_shape (env : Env) (now lat : ℚ) (B Q : String)
    (amount : ℚ) :
    ∀ (ps : List String) (st : EState),
      let r := (singlePivotLoop env now lat B Q amount ps st).1
      r.latency_ms = lat ∧ r.cached = false ∧
        ((∃ ρ, r.rate = some ρ ∧ r.amount = some (amount * ρ) ∧
            r.confidence = 0.8 ∧ r.method ≠ ConversionMethod.direct ∧
            r.method ≠ ConversionMethod.cached ∧
            r.method ≠ ConversionMethod.fallback) ∨
          (r.rate = none ∧ r.amount = none ∧ r.confidence = 0 ∧
            r.method = ConversionMethod.usd_bridge)) := by
  intro ps
  induction ps with
  | nil => exact fun st => ⟨rfl, rfl, Or.inr ⟨rfl, rfl, rfl, rfl⟩⟩
  | cons p rest ih =>
      intro st
      simp only [singlePivotLoop]
      split
      · exact ih _
      · split
        · exact ih _
        · split
          · exact ih _
          · obtain ⟨h1, h2, h3⟩ := methodForPivot_ne p
            exact ⟨rfl, rfl, Or.inl ⟨_, rfl, rfl, rfl, h1, h2, h3⟩⟩

theorem doublePivotLoop_shape (env : Env) (now lat : ℚ) (B Q : String)
    (amount : ℚ) :
    ∀ (ps : List (String × String)) (st : EState),
      let r := (doublePivotLoop env now lat B Q amount ps st).1
      r.latency_ms = lat ∧ r.cached = false ∧
        r.method = ConversionMethod.fallback ∧
        ((∃ ρ, r.rate = some ρ ∧ r.amount = some (amount * ρ) ∧
            r.confidence = 0.6 ∧
            ∃ l, r.bridge_rates = some l ∧ l.length = 3) ∨
          (r.rate = none ∧ r.amount = none ∧ r.confidence = 0)) := by
  intro ps
  induction ps with
  | nil => exact fun st => ⟨rfl, rfl, rfl, Or.inr ⟨rfl, rfl, rfl⟩⟩
  | cons pp rest ih =>
      intro st
      obtain ⟨p1, p2⟩ := pp
      simp only [doublePivotLoop]
      split
      · exact ih _
      · split
        · exact ih _
        · split
          · exact ih _
          · split
            · exact ih _
            · exact ⟨rfl, rfl, rfl, Or.inl ⟨_, rfl, rfl, rfl, _, rfl, rfl⟩⟩

theorem tryDouble_shape (env : Env) (now lat : ℚ) (st : EState)
    (B Q : String) (amount : ℚ) :
    let r := (tryDoublePivotConversion env now lat st B Q amount).1
    r.latency_ms = lat ∧ r.cached = false ∧
      r.method = ConversionMethod.fallback ∧
      ((∃ ρ, r.rate = some ρ ∧ r.amount = some (amount * ρ) ∧
          r.confidence = 0.6 ∧
          ∃ l, r.bridge_rates = some l ∧ l.length = 3) ∨
        (r.rate = none ∧ r.amount = none ∧ r.confidence = 0)) := by
  simp only [tryDoublePivotConversion]
  split
  · exact ⟨rfl, rfl, rfl, Or.inr ⟨rfl, rfl, rfl⟩⟩
  · exact doublePivotLoop_shape env now lat B Q amount pivotCombinations st

theorem fallback_shape (env : Env) (now lat : ℚ) (st : EState)
    (B Q : String) (amount : ℚ) :
    let r := (fallbackConversion env now lat st B Q amount).1
    r.latency_ms = lat ∧
      ∃ ρ, r.rate = some ρ ∧ r.amount = some (amount * ρ) ∧
        ((r.confidence = 0.3 ∧ r.cached = true ∧
            r.method = ConversionMethod.cached) ∨
          (r.confidence = 0.2 ∧ r.cached = false ∧
            r.method = ConversionMethod.fallback)) := by
  obtain ⟨er, her, hpos⟩ := generateEstimatedRate_pos env B Q
  simp only [fallbackConversion, her]
  split
  · exact ⟨rfl, _, rfl, rfl, Or.inl ⟨rfl, rfl, rfl⟩⟩
  · rw [if_neg hpos.ne']
    exact ⟨rfl, er, rfl, rfl, Or.inr ⟨rfl, rfl, rfl⟩⟩

theorem trySingle_shape (env : Env) (now lat : ℚ) (st : EState)
    (B Q : String) (amount : ℚ) :
    let r := (trySinglePivotConversion env now lat st B Q amount).1
    r.latency_ms = lat ∧ r.cached = false ∧
      ((∃ ρ, r.rate = some ρ ∧ r.amount = some (amount * ρ) ∧
          r.confidence = 0.8 ∧ r.method ≠ ConversionMethod.direct ∧
          r.method ≠ ConversionMethod.cached ∧
          r.method ≠ ConversionMethod.fallback) ∨
        (r.rate = none ∧ r.amount = none ∧ r.confidence = 0 ∧
          r.method = ConversionMethod.usd_bridge)) :=
  singlePivotLoop_shape env now lat B Q amount pivots st

/-! ### Stats preservation: only the fallback path of `convert` touches the
outcome counters -/

/-- The stats fields written exclusively by the tail of `convert`. -/
def statsCore (s s' : Stats) : Prop :=
  s'.total_conversions = s.total_conversions ∧
  s'.successful_conversions = s.successful_conversions ∧
  s'.fallback_uses = s.fallback_uses ∧
  s'.avg_latency = s.avg_latency ∧
  s'.cache_hits = s.cache_hits

theorem statsCore_refl (s : Stats) : statsCore s s :=
  ⟨rfl, rfl, rfl, rfl, rfl⟩

theorem statsCore_trans {a b c : Stats} (h1 : statsCore a b)
    (h2 : statsCore b c) : statsCore a c := by
  obtain ⟨x1, x2, x3, x4, x5⟩ := h1
  obtain ⟨y1, y2, y3, y4, y5⟩ := h2
  exact ⟨y1.trans x1, y2.trans x2, y3.trans x3, y4.trans x4, y5.trans x5⟩

theorem fetchRateData_core (env : Env) (stats : Stats) (b q : String) :
    statsCore stats (fetchRateData env stats b q).2.1 := by
  unfold statsCore
  refine ⟨?_, ?_, ?_, ?_, ?_⟩ <;>
    · simp only [fetchRateData]
      repeat' split
      all_goals rfl

theorem inversePairStep_core (env : Env) (now : ℚ) (cache : FastCache)
    (stats : Stats) (b q key : String) :
    statsCore stats (inversePairStep env now cache stats b q key).2.stats := by
  have h := fetchRateData_core env stats q b
  simp only [inversePairStep]
  split
  · split
    · exact h
    · exact h
  · exact h

theorem getConversionRate_core (env : Env) (now : ℚ) (st : EState)
    (b q : String) :
    statsCore st.stats (getConversionRate env now st b q).2.stats := by
  simp only [getConversionRate]
  split
  · exact statsCore_refl _
  · split
    · split
      · exact statsCore_trans (fetchRateData_core env st.stats b q)
          (inversePairStep_core env now _ _ b q _)
      · exact fetchRateData_core env st.stats b q
    · exact statsCore_trans (fetchRateData_core env st.stats b q)
        (inversePairStep_core env now _ _ b q _)

theorem singlePivotLoop_core (env : Env) (now lat : ℚ) (B Q : String)
    (amount : ℚ) :
    ∀ (ps : List String) (st : EState),
      statsCore st.stats
        (singlePivotLoop env now lat B Q amount ps st).2.stats := by
  intro ps
  induction ps with
  | nil => exact fun st => statsCore_refl _
  | cons p rest ih =>
      intro st
      simp only [singlePivotLoop]
      split
      · exact ih _
      · split
        · exact statsCore_trans (getConversionRate_core env now st B p) (ih _)
        · split
          · exact statsCore_trans
              (statsCore_trans (getConversionRate_core env now st B p)
                (getConversionRate_core env now _ p Q)) (ih _)
          · exact statsCore_trans (getConversionRate_core env now st B p)
              (getConversionRate_core env now _ p Q)

theorem doublePivotLoop_core (env : Env) (now lat : ℚ) (B Q : String)
    (amount : ℚ) :
    ∀ (ps : List (String × String)) (st : EState),
      statsCore st.stats
        (doublePivotLoop env now lat B Q amount ps st).2.stats := by
  intro ps
  induction ps with
  | nil => exact fun st => statsCore_refl _
  | cons pp rest ih =>
      intro st
      obtain ⟨p1, p2⟩ := pp
      simp only [doublePivotLoop]
      split
      · exact ih _
      · split
        · exact statsCore_trans (getConversionRate_core env now st B p1)
            (ih _)
        · split
          · exact statsCore_trans
              (statsCore_trans (getConversionRate_core env now st B p1)
                (getConversionRate_core env now _ p1 p2)) (ih _)
          · split
            · exact statsCore_trans
                (statsCore_trans
                  (statsCore_trans (getConversionRate_core env now st B p1)
                    (getConversionRate_core env now _ p1 p2))
                  (getConversionRate_core env now _ p2 Q)) (ih _)
            · exact statsCore_trans
                (statsCore_trans (getConversionRate_core env now st B p1)
                  (getConversionRate_core env now _ p1 p2))
                (getConversionRate_core env now _ p2 Q)

theorem tryDouble_core (env : Env) (now lat : ℚ) (st : EState)
    (B Q : String) (amount : ℚ) :
    statsCore st.stats
      (tryDoublePivotConversion env now lat st B Q amount).2.stats := by
  simp only [tryDoublePivotConversion]
  split
  · exact statsCore_refl _
  · exact doublePivotLoop_core env now lat B Q amount pivotCombinations st

/-- The direct strategy preserves the outcome counters except that a cache
hit bumps `cache_hits`; on failure (null rate) even `cache_hits` is
untouched. -/
theorem tryDirect_core (env : Env) (now lat : ℚ) (st : EState)
    (B Q : String) (amount : ℚ) :
    ((tryDirectConversion env now lat st B Q amount).2.stats.total_conversions
        = st.stats.total_conversions ∧
      (tryDirectConversion env now lat st B Q
          amount).2.stats.successful_conversions
        = st.stats.successful_conversions ∧
      (tryDirectConversion env now lat st B Q amount).2.stats.fallback_uses
        = st.stats.fallback_uses ∧
      (tryDirectConversion env now lat st B Q amount).2.stats.avg_latency
        = st.stats.avg_latency) ∧
    ((tryDirectConversion env now lat st B Q amount).1.rate = none →
      statsCore st.stats
        (tryDirectConversion env now lat st B Q amount).2.stats) := by
  have hf := fetchRateData_core env st.stats B Q
  simp only [tryDirectConversion]
  split
  · exact ⟨⟨rfl, rfl, rfl, rfl⟩, fun h => by cases h⟩
  · split
    · split
      · exact ⟨⟨hf.1, hf.2.1, hf.2.2.1, hf.2.2.2.1⟩, fun _ => hf⟩
      · exact ⟨⟨hf.1, hf.2.1, hf.2.2.1, hf.2.2.2.1⟩, fun h => by cases h⟩
    · exact ⟨⟨hf.1, hf.2.1, hf.2.2.1, hf.2.2.2.1⟩, fun _ => hf⟩

theorem fallbackConversion_stats (env : Env) (now lat : ℚ) (st : EState)
    (B Q : String) (amount : ℚ) :
    (fallbackConversion env now lat st B Q amount).2.stats = st.stats := by
  simp only [fallbackConversion]
  repeat' split
  all_goals rfl

/-- Every non-degenerate `convert` call produces a result with a rate: the
fallback strategy is total because `_generate_estimated_rate` always returns
a positive rate.  The confidence is the winning strategy's constant. -/
theorem convert_succeeds (env : Env) (now lat : ℚ) (st : EState)
    (b q : String) (amount : ℚ) (h : b.toUpper ≠ q.toUpper) :
    ∃ ρ, (convert env now lat st b q amount).1.rate = some ρ ∧
      (convert env now lat st b q amount).1.amount = some (amount * ρ) ∧
      ((convert env now lat st b q amount).1.confidence = 1 ∨
        (convert env now lat st b q amount).1.confidence = 0.8 ∨
        (convert env now lat st b q amount).1.confidence = 0.6 ∨
        (convert env now lat st b q amount).1.confidence = 0.3 ∨
        (convert env now lat st b q amount).1.confidence = 0.2) := by
  simp only [convert]
  rw [if_neg h]
  obtain ⟨-, -, hd⟩ := tryDirect_shape env now lat
    { st with stats := { st.stats with
        total_conversions := st.stats.total_conversions + 1 } }
    b.toUpper q.toUpper amount
  rcases hd with ⟨ρ, hr, ha, hc⟩ | ⟨hr, -, -, -⟩
  · have hsome : (tryDirectConversion env now lat
        { st with stats := { st.stats with
            total_conversions := st.stats.total_conversions + 1 } }
        b.toUpper q.toUpper amount).1.rate.isSome = true := by
      rw [hr]; rfl
    rw [if_pos hsome]
    exact ⟨ρ, hr, ha, Or.inl hc⟩
  · have hnone : ¬((tryDirectConversion env now lat
        { st with stats := { st.stats with
            total_conversions := st.stats.total_conversions + 1 } }
        b.toUpper q.toUpper amount).1.rate.isSome = true) := by
      rw [hr]; simp
    rw [if_neg hnone]
    obtain ⟨-, -, hs⟩ := trySingle_shape env now lat
      (tryDirectConversion env now lat
        { st with stats := { st.stats with
            total_conversions := st.stats.total_conversions + 1 } }
        b.toUpper q.toUpper amount).2 b.toUpper q.toUpper amount
    rcases hs with ⟨ρ, hr2, ha2, hc2, -, -, -⟩ | ⟨hr2, -, -, -⟩
    · have hsome2 : (trySinglePivotConversion env now lat
          (tryDirectConversion env now lat
            { st with stats := { st.stats with
                total_conversions := st.stats.total_conversions + 1 } }
            b.toUpper q.toUpper amount).2 b.toUpper q.toUpper
          amount).1.rate.isSome = true := by
        rw [hr2]; rfl
      rw [if_pos hsome2]
      exact ⟨ρ, hr2, ha2, Or.inr (Or.inl hc2)⟩
    · have hnone2 : ¬((trySinglePivotConversion env now lat
          (tryDirectConversion env now lat
            { st with stats := { st.stats with
                total_conversions := st.stats.total_conversions + 1 } }
            b.toUpper q.toUpper amount).2 b.toUpper q.toUpper
          amount).1.rate.isSome = true) := by
        rw [hr2]; simp
      rw [if_neg hnone2]
      obtain ⟨-, -, -, ht⟩ := tryDouble_shape env now lat
        (trySinglePivotConversion env now lat
          (tryDirectConversion env now lat
            { st with stats := { st.stats with
                total_conversions := st.stats.total_conversions + 1 } }
            b.toUpper q.toUpper amount).2 b.toUpper q.toUpper amount).2
        b.toUpper q.toUpper amount
      rcases ht with ⟨ρ, hr3, ha3, hc3, -⟩ | ⟨hr3, -, -⟩
      · have hsome3 : ((tryDoublePivotConversion env now lat
            (trySinglePivotConversion env now lat
              (tryDirectConversion env now lat
                { st with stats := { st.stats with
                    total_conversions := st.stats.total_conversions + 1 } }
                b.toUpper q.toUpper amount).2 b.toUpper q.toUpper amount).2
            b.toUpper q.toUpper amount).1.rate.isSome = true) := by
          rw [hr3]; rfl
        rw [if_pos hsome3]
        exact ⟨ρ, hr3, ha3, Or.inr (Or.inr (Or.inl hc3))⟩
      · have hnone3 : ¬((tryDoublePivotConversion env now lat
            (trySinglePivotConversion env now lat
              (tryDirectConversion env now lat
                { st with stats := { st.stats with
                    total_conversions := st.stats.total_conversions + 1 } }
                b.toUpper q.toUpper amount).2 b.toUpper q.toUpper amount).2
            b.toUpper q.toUpper amount).1.rate.isSome = true) := by
          rw [hr3]; simp
        rw [if_neg hnone3]
        obtain ⟨-, ρ, hr4, ha4, hc4⟩ := fallback_shape env now lat
          (tryDoublePivotConversion env now lat
            (trySinglePivotConversion env now lat
              (tryDirectConversion env now lat
                { st with stats := { st.stats with
                    total_conversions := st.stats.total_conversions + 1 } }
                b.toUpper q.toUpper amount).2 b.toUpper q.toUpper amount).2
            b.toUpper q.toUpper amount).2 b.toUpper q.toUpper amount
        refine ⟨ρ, hr4, ha4, ?_⟩
        rcases hc4 with ⟨hc4, -, -⟩ | ⟨hc4, -, -⟩
        · exact Or.inr (Or.inr (Or.inr (Or.inl hc4)))
        · exact Or.inr (Or.inr (Or.inr (Or.inr hc4)))

/-! ### Claim theorems -/

/-- Claim C2: for every symbol X and every amount, `convert(X, X, amount)`
returns rate 1.0, converted amount equal to the input amount, confidence 1.0
and method `direct`, without attempting any of the four strategies — the
state change is exactly the `total_conversions` increment, with the cache
untouched. -/
theorem c2_convert_same_asset (env : Env) (now lat : ℚ) (st : EState)
    (x : String) (amount : ℚ) :
    convert env now lat st x x amount =
      ({ pair := x.toUpper ++ "/" ++ x.toUpper,
         method := ConversionMethod.direct, rate := some 1,
         amount := some amount, confidence := 1, latency_ms := lat },
       { st with stats := { st.stats with
           total_conversions := st.stats.total_conversions + 1 } }) := by
  simp only [convert]
  rw [if_pos trivial]

/-- Claim C3: every result of `convert` satisfies `rate = none ↔
converted amount = none ↔ confidence = 0`, except the degenerate same-asset
case (equal after uppercasing), which always yields rate 1.0 and
confidence 1.0. -/
theorem c3_result_invariant (env : Env) (now lat : ℚ) (st : EState)
    (b q : String) (amount : ℚ) :
    (b.toUpper = q.toUpper →
      (convert env now lat st b q amount).1.rate = some 1 ∧
        (convert env now lat st b q amount).1.confidence = 1) ∧
    (b.toUpper ≠ q.toUpper →
      ((convert env now lat st b q amount).1.rate = none ↔
          (convert env now lat st b q amount).1.amount = none) ∧
        ((convert env now lat st b q amount).1.rate = none ↔
          (convert env now lat st b q amount).1.confidence = 0)) := by
  constructor
  · intro h
    simp only [convert]
    rw [if_pos h]
    exact ⟨rfl, rfl⟩
  · intro h
    obtain ⟨ρ, hr, ha, hc⟩ := convert_succeeds env now lat st b q amount h
    refine ⟨?_, ?_⟩
    · rw [hr, ha]
      simp
    · rw [hr]
      constructor
      · intro h'
        cases h'
      · intro h0
        exfalso
        rcases hc with h' | h' | h' | h' | h' <;> rw [h'] at h0 <;>
          norm_num at h0

/-- Claim C10: for every pair of distinct symbols — in the catalogs or not —
`convert` returns a non-null rate with confidence at least 0.2: the
estimated-rate generator is total and positive (its asset-type defaults
cover all four combinations, also for unknown symbols), so the fallback
strategy's terminal "No conversion method available" branch is
unreachable.  The embedding's cache backend never raises, matching the
claim's hypothesis. -/
theorem c10_convert_total (env : Env) (now lat : ℚ) (st : EState)
    (b q : String) (amount : ℚ) (h : b.toUpper ≠ q.toUpper) :
    (convert env now lat st b q amount).1.rate.isSome = true ∧
      (0.2 : ℚ) ≤ (convert env now lat st b q amount).1.confidence := by
  obtain ⟨ρ, hr, -, hc⟩ := convert_succeeds env now lat st b q amount h
  refine ⟨by rw [hr]; rfl, ?_⟩
  rcases hc with h' | h' | h' | h' | h' <;> rw [h'] <;> norm_num

/-- C10 witness: a pair of unknown symbols (empty catalogs, no providers)
still converts, via the estimated-rate fallback. -/
theorem c10_witness :
    (convert envBare 0 5 emptyState "BTC" "USD" 1).1.rate.isSome = true ∧
      (0.2 : ℚ) ≤ (convert envBare 0 5 emptyState "BTC" "USD" 1).1.confidence :=
  c10_convert_total envBare 0 5 emptyState "BTC" "USD" 1
    (by with_unfolding_all decide)

/-- C3 witness: the invariant evaluated at a degenerate call and at a
distinct-symbol call. -/
theorem c3_witness :
    ((convert envBare 0 5 emptyState "USD" "USD" 3).1.rate = some 1 ∧
      (convert envBare 0 5 emptyState "USD" "USD" 3).1.confidence = 1) ∧
    (((convert envBare 0 5 emptyState "USD" "EUR" 3).1.rate = none ↔
        (convert envBare 0 5 emptyState "USD" "EUR" 3).1.amount = none) ∧
      ((convert envBare 0 5 emptyState "USD" "EUR" 3).1.rate = none ↔
        (convert envBare 0 5 emptyState "USD" "EUR" 3).1.confidence = 0)) :=
  ⟨(c3_result_invariant envBare 0 5 emptyState "USD" "USD" 3).1 rfl,
   (c3_result_invariant envBare 0 5 emptyState "USD" "EUR" 3).2
     (by with_unfolding_all decide)⟩

/-- Claim C5 (amended): the `FastCacheManager` honours a single global
`CACHE_TTL` for every entry: within it `get` returns the stored value, past
it `get` answers absent and evicts the entry — regardless of the
category-specific `ttl` argument passed to `set`, which the implementation
ignores. -/
theorem c5_global_cache_ttl (c : FastCache) (g t0 t1 : ℚ) (k : String)
    (v ttl : ℚ) (h0 : 0 ≤ t1 - t0) :
    (t1 - t0 < g →
      FastCache.get (FastCache.set c g t0 k v ttl) g t1 k =
        (some v, FastCache.set c g t0 k v ttl)) ∧
    (g ≤ t1 - t0 →
      (FastCache.get (FastCache.set c g t0 k v ttl) g t1 k).1 = none ∧
        (FastCache.get (FastCache.set c g t0 k v ttl) g t1
            k).2.entries.lookup k = none) :=
  ⟨fun h1 => get_set_fresh h0 h1, fun h1 => get_set_stale h1⟩

/-- C5 counterexample: the claim's category-specific expiry is false on the
code.  An entry stored with `ttl=3600` (the fallback category) is already
absent 301 seconds later (the global `CACHE_TTL` is 300), and an entry
stored with `ttl=60` (the direct/bridge-leg category) is still returned 200
seconds later. -/
theorem c5_counterexample :
    (FastCache.get (FastCache.set ⟨[]⟩ 300 0 "fallback:BTC:USD" 5 3600) 300
        301 "fallback:BTC:USD").1 = none ∧
      (FastCache.get (FastCache.set ⟨[]⟩ 300 0 "direct:BTC:USD" 5 60) 300
        200 "direct:BTC:USD").1 = some 5 := by
  with_unfolding_all decide

/-- C5 witness: the amended global-TTL behaviour at concrete times 100
(fresh) and 301 (stale, evicted). -/
theorem c5_witness :
    (FastCache.get (FastCache.set ⟨[]⟩ 300 0 "k" 5 3600) 300 100 "k" =
      (some 5, FastCache.set ⟨[]⟩ 300 0 "k" 5 3600)) ∧
    ((FastCache.get (FastCache.set ⟨[]⟩ 300 0 "k" 5 3600) 300 301 "k").1 =
        none ∧
      (FastCache.get (FastCache.set ⟨[]⟩ 300 0 "k" 5 3600) 300 301
          "k").2.entries.lookup "k" = none) :=
  ⟨(c5_global_cache_ttl ⟨[]⟩ 300 0 100 "k" 5 3600 (by norm_num)).1
      (by norm_num),
   (c5_global_cache_ttl ⟨[]⟩ 300 0 301 "k" 5 3600 (by norm_num)).2
      (by norm_num)⟩

/-- Claim C6: a pair whose base or quote is absent from both catalogs makes
the rate-fetch path fail immediately: no stats counter moves (in particular
`api_calls` and both `api_call_breakdown` counters) and no upstream provider
is contacted (the returned call trace is empty). -/
theorem c6_unsupported_no_api (env : Env) (stats : Stats) (b q : String)
    (h : env.supported b = false ∨ env.supported q = false) :
    fetchRateData env stats b q = (none, stats, []) := by
  have hc : (!(env.supported b) || !(env.supported q)) = true := by
    rcases h with h | h <;> simp [h]
  simp only [fetchRateData]
  rw [if_pos hc]

/-- C6 witness: the unknown symbol ZZZ short-circuits the fetch. -/
theorem c6_witness :
    fetchRateData envBare Stats.start "ZZZ" "USD" =
      (none, Stats.start, []) :=
  c6_unsupported_no_api envBare Stats.start "ZZZ" "USD"
    (Or.inl (by with_unfolding_all decide))

/-- Claim C4 (amended): the double-pivot strategy is attempted only when
both assets are crypto (otherwise it returns the "not applicable" failure
with the state untouched), and every successful double-pivot result carries
confidence 0.6 with its two pivots recorded in the three `bridge_rates`
legs — but its method tag is `ConversionMethod.fallback`, the same tag the
fallback strategy uses, not a distinct double-pivot case. -/
theorem c4_double_pivot_props (env : Env) (now lat : ℚ) (st : EState)
    (b q : String) (amount : ℚ) :
    ((env.isCrypto b && env.isCrypto q) = false →
      tryDoublePivotConversion env now lat st b q amount =
        ({ pair := b ++ "/" ++ q, method := ConversionMethod.fallback,
           rate := none, amount := none, confidence := 0, latency_ms := lat,
           error := some "Double pivot not applicable" }, st)) ∧
    ((tryDoublePivotConversion env now lat st b q amount).1.rate.isSome =
        true →
      (tryDoublePivotConversion env now lat st b q amount).1.confidence =
          0.6 ∧
        (tryDoublePivotConversion env now lat st b q amount).1.method =
          ConversionMethod.fallback ∧
        ∃ l, (tryDoublePivotConversion env now lat st b q
              amount).1.bridge_rates = some l ∧ l.length = 3) := by
  constructor
  · intro h
    simp only [tryDoublePivotConversion]
    rw [if_pos (by rw [h]; rfl)]
  · intro h
    obtain ⟨-, -, hm, hcase⟩ := tryDouble_shape env now lat st b q amount
    rcases hcase with ⟨ρ, hr, -, hconf, l, hl, hlen⟩ | ⟨hr, -, -⟩
    · exact ⟨hconf, hm, l, hl, hlen⟩
    · rw [hr] at h
      exact absurd h (by simp)

/-- C4 counterexample: a successful double-pivot conversion (SOL→ADA via
USD then BTC) has `method = ConversionMethod.fallback` — the fallback tag,
not a distinct double-pivot case as the claim states. -/
theorem c4_counterexample :
    (tryDoublePivotConversion envCryptoAll2 0 5 emptyState "SOL" "ADA"
        1).1.rate = some 2 ∧
      (tryDoublePivotConversion envCryptoAll2 0 5 emptyState "SOL" "ADA"
        1).1.confidence = 0.6 ∧
      (tryDoublePivotConversion envCryptoAll2 0 5 emptyState "SOL" "ADA"
        1).1.method = ConversionMethod.fallback := by
  with_unfolding_all decide

/-- C4 witness: the gate refuses the fiat pair USD/EUR, and the successful
crypto pair SOL/ADA carries confidence 0.6 with three bridge legs. -/
theorem c4_witness :
    (tryDoublePivotConversion envCryptoAll2 0 5 emptyState "USD" "EUR" 1 =
      ({ pair := "USD" ++ "/" ++ "EUR", method := ConversionMethod.fallback,
         rate := none, amount := none, confidence := 0, latency_ms := 5,
         error := some "Double pivot not applicable" }, emptyState)) ∧
    ((tryDoublePivotConversion envCryptoAll2 0 5 emptyState "SOL" "ADA"
        1).1.confidence = 0.6 ∧
      (tryDoublePivotConversion envCryptoAll2 0 5 emptyState "SOL" "ADA"
        1).1.method = ConversionMethod.fallback ∧
      ∃ l, (tryDoublePivotConversion envCryptoAll2 0 5 emptyState "SOL"
            "ADA" 1).1.bridge_rates = some l ∧ l.length = 3) :=
  ⟨(c4_double_pivot_props envCryptoAll2 0 5 emptyState "USD" "EUR" 1).1
      (by with_unfolding_all decide),
   (c4_double_pivot_props envCryptoAll2 0 5 emptyState "SOL" "ADA" 1).2
      (by with_unfolding_all decide)⟩

/-- Claim C9 (amended): `health_check` appends to `issues` only inside
`except` handlers, so in the exception-free embedding the status is always
"healthy" with an empty issues list; a cache round-trip that returns absent
non-exceptionally (which happens exactly when the global TTL is not
positive) merely sets the `cache_manager` field to "failed" without
degrading the status, and a battery conversion with a null rate would
likewise be recorded as `success = false` without degrading the status. -/
theorem c9_health_check (env : Env) (now lat : ℚ) (st : EState) :
    (healthCheck env now lat st).1.status = "healthy" ∧
      (healthCheck env now lat st).1.issues = [] ∧
      (healthCheck env now lat st).1.cacheManager =
        (if 0 < env.cacheTTL then "operational" else "failed") := by
  refine ⟨rfl, rfl, ?_⟩
  simp only [healthCheck]
  rw [get_set_now]
  by_cases hg : 0 < env.cacheTTL
  · simp [hg]
  · simp [hg]

/-- C9 counterexample: with a zero global TTL the cache write/read
round-trip fails (`cache_manager = "failed"`), yet the overall status stays
"healthy" and nothing is appended to `issues` — the claim requires status
"degraded" with the failure appended. -/
theorem c9_counterexample :
    (healthCheck envZeroTTL 0 5 emptyState).1.cacheManager = "failed" ∧
      (healthCheck envZeroTTL 0 5 emptyState).1.status = "healthy" ∧
      (healthCheck envZeroTTL 0 5 emptyState).1.issues = [] := by
  with_unfolding_all decide

/-- Claim C7: the shared rate-lookup helper first checks the cache key
`rate:X:Y`; on a miss it asks the provider for X/Y; when that fails (no
data, or a falsy zero close) it asks for the inverse Y/X and returns the
reciprocal when the inverse rate is non-zero; whichever direction succeeded
is cached with the short `ttl=60`; and it returns null when both directions
fail. -/
theorem c7_rate_lookup_spec (env : Env) (now : ℚ) (st : EState)
    (x y : String) :
    (∀ r, (FastCache.get st.cache env.cacheTTL now
          ("rate:" ++ x ++ ":" ++ y)).1 = some r →
      getConversionRate env now st x y =
        (some r, { st with
          cache := (FastCache.get st.cache env.cacheTTL now
            ("rate:" ++ x ++ ":" ++ y)).2 })) ∧
    ((FastCache.get st.cache env.cacheTTL now
        ("rate:" ++ x ++ ":" ++ y)).1 = none →
      (∀ c, (fetchRateData env st.stats x y).1 = some c → c ≠ 0 →
        getConversionRate env now st x y =
          (some c,
           ⟨FastCache.set (FastCache.get st.cache env.cacheTTL now
                ("rate:" ++ x ++ ":" ++ y)).2 env.cacheTTL now
                ("rate:" ++ x ++ ":" ++ y) c 60,
            (fetchRateData env st.stats x y).2.1⟩)) ∧
      ((fetchRateData env st.stats x y).1 = none ∨
          (fetchRateData env st.stats x y).1 = some 0 →
        (∀ c2, (fetchRateData env (fetchRateData env st.stats x y).2.1 y
              x).1 = some c2 → c2 ≠ 0 →
          getConversionRate env now st x y =
            (some (1 / c2),
             ⟨FastCache.set (FastCache.get st.cache env.cacheTTL now
                  ("rate:" ++ x ++ ":" ++ y)).2 env.cacheTTL now
                  ("rate:" ++ x ++ ":" ++ y) (1 / c2) 60,
              (fetchRateData env (fetchRateData env st.stats x y).2.1 y
                x).2.1⟩)) ∧
        ((fetchRateData env (fetchRateData env st.stats x y).2.1 y x).1 =
              none ∨
            (fetchRateData env (fetchRateData env st.stats x y).2.1 y
              x).1 = some 0 →
          getConversionRate env now st x y =
            (none,
             ⟨(FastCache.get st.cache env.cacheTTL now
                ("rate:" ++ x ++ ":" ++ y)).2,
              (fetchRateData env (fetchRateData env st.stats x y).2.1 y
                x).2.1⟩)))) := by
  refine ⟨?_, fun hg => ⟨?_, fun hfwd => ⟨?_, ?_⟩⟩⟩
  · intro r hr
    simp only [getConversionRate, hr]
  · intro c hc hcne
    simp only [getConversionRate, hg, hc]
    rw [if_neg hcne]
  · intro c2 h2 h2ne
    rcases hfwd with hf | hf
    · simp only [getConversionRate, inversePairStep, hg, hf, h2]
      rw [if_neg h2ne]
    · simp only [getConversionRate, inversePairStep, hg, hf, h2]
      rw [if_pos trivial, if_neg h2ne]
  · intro hinv
    rcases hfwd with hf | hf <;> rcases hinv with hi | hi
    · simp only [getConversionRate, inversePairStep, hg, hf, hi]
    · simp only [getConversionRate, inversePairStep, hg, hf, hi]
      rw [if_pos trivial]
    · simp only [getConversionRate, inversePairStep, hg, hf, hi]
      rw [if_pos trivial]
    · simp only [getConversionRate, inversePairStep, hg, hf, hi]
      rw [if_pos trivial, if_pos trivial]

/-- C7 witness: the four behaviours at concrete inputs — a fresh cache hit
(value 9), a direct provider answer (USD/EUR = 2), an inverse-derived
answer (EUR/USD = 1/2), and a double failure (EUR/GBP with GBP
unsupported). -/
theorem c7_witness :
    (getConversionRate envFiatDirect 10 hitState "EUR" "USD").1 = some 9 ∧
      (getConversionRate envFiatDirect 0 emptyState "USD" "EUR").1 =
        some 2 ∧
      (getConversionRate envFiatDirect 0 emptyState "EUR" "USD").1 =
        some (1 / 2) ∧
      (getConversionRate envFiatDirect 0 emptyState "EUR" "GBP").1 = none :=
  ⟨by rw [(c7_rate_lookup_spec envFiatDirect 10 hitState "EUR" "USD").1 9
      (by with_unfolding_all decide)],
   by rw [((c7_rate_lookup_spec envFiatDirect 0 emptyState "USD" "EUR").2
      (by with_unfolding_all decide)).1 2 (by with_unfolding_all decide)
      (by norm_num)],
   by rw [(((c7_rate_lookup_spec envFiatDirect 0 emptyState "EUR" "USD").2
      (by with_unfolding_all decide)).2
      (Or.inl (by with_unfolding_all decide))).1 2
      (by with_unfolding_all decide) (by norm_num)],
   by rw [(((c7_rate_lookup_spec envFiatDirect 0 emptyState "EUR" "GBP").2
      (by with_unfolding_all decide)).2
      (Or.inl (by with_unfolding_all decide))).2
      (Or.inl (by with_unfolding_all decide))]⟩

theorem trySingle_core (env : Env) (now lat : ℚ) (st : EState)
    (B Q : String) (amount : ℚ) :
    statsCore st.stats
      (trySinglePivotConversion env now lat st B Q amount).2.stats :=
  singlePivotLoop_core env now lat B Q amount pivots st

theorem finalizeStats_fields (r : ConversionResult) (s : Stats) :
    (finalizeStats r s).total_conversions = s.total_conversions ∧
      (finalizeStats r s).successful_conversions =
        s.successful_conversions + (if r.rate.isSome then 1 else 0) ∧
      (finalizeStats r s).cache_hits =
        s.cache_hits + (if r.cached then 1 else 0) ∧
      (finalizeStats r s).fallback_uses =
        s.fallback_uses +
          (if r.method = ConversionMethod.fallback then 1 else 0) ∧
      (finalizeStats r s).avg_latency =
        (s.avg_latency * ((s.total_conversions : ℚ) - 1) + r.latency_ms) /
          (s.total_conversions : ℚ) := by
  simp only [finalizeStats]
  split_ifs <;> simp

/-- Claim C1 (amended): `total_conversions` is incremented by every call,
but the remaining stats are written only by a call that falls through to the
fallback strategy.  An early exit (a result with the strategy confidences 1,
0.8 or 0.6) leaves `successful_conversions`, `fallback_uses` and
`avg_latency` untouched.  A fallback-path result (confidence 0.3 or 0.2)
always has a non-null rate, increments `successful_conversions`, increments
`cache_hits` exactly when the result is cached, increments `fallback_uses`
exactly when the method is `fallback`, and replaces `avg_latency` by the
running mean `(old*(n-1) + latency)/n` with `n = total_conversions`. -/
theorem c1_stats_update_on_fallback_only (env : Env) (now lat : ℚ)
    (st : EState) (b q : String) (amount : ℚ)
    (hbq : b.toUpper ≠ q.toUpper) :
    (convert env now lat st b q amount).2.stats.total_conversions =
        st.stats.total_conversions + 1 ∧
      (((convert env now lat st b q amount).1.confidence = 1 ∨
          (convert env now lat st b q amount).1.confidence = 0.8 ∨
          (convert env now lat st b q amount).1.confidence = 0.6) →
        (convert env now lat st b q
              amount).2.stats.successful_conversions =
            st.stats.successful_conversions ∧
          (convert env now lat st b q amount).2.stats.fallback_uses =
            st.stats.fallback_uses ∧
          (convert env now lat st b q amount).2.stats.avg_latency =
            st.stats.avg_latency) ∧
      (((convert env now lat st b q amount).1.confidence = 0.3 ∨
          (convert env now lat st b q amount).1.confidence = 0.2) →
        (convert env now lat st b q amount).1.rate.isSome = true ∧
          (convert env now lat st b q
                amount).2.stats.successful_conversions =
              st.stats.successful_conversions + 1 ∧
          (convert env now lat st b q amount).2.stats.cache_hits =
            st.stats.cache_hits +
              (if (convert env now lat st b q amount).1.cached then 1
               else 0) ∧
          (convert env now lat st b q amount).2.stats.fallback_uses =
            st.stats.fallback_uses +
              (if (convert env now lat st b q amount).1.method =
                  ConversionMethod.fallback then 1 else 0) ∧
          (convert env now lat st b q amount).2.stats.avg_latency =
            (st.stats.avg_latency * (st.stats.total_conversions : ℚ) +
                lat) /
              ((st.stats.total_conversions : ℚ) + 1)) := by
  simp only [convert]
  rw [if_neg hbq]
  set B := b.toUpper with hB
  set Q := q.toUpper with hQ
  set ST : EState := { st with stats := { st.stats with
    total_conversions := st.stats.total_conversions + 1 } } with hST
  have hSTtotal : ST.stats.total_conversions =
      st.stats.total_conversions + 1 := by rw [hST]
  have hSTsucc : ST.stats.successful_conversions =
      st.stats.successful_conversions := by rw [hST]
  have hSTfb : ST.stats.fallback_uses = st.stats.fallback_uses := by
    rw [hST]
  have hSTavg : ST.stats.avg_latency = st.stats.avg_latency := by rw [hST]
  have hSTch : ST.stats.cache_hits = st.stats.cache_hits := by rw [hST]
  obtain ⟨hdcore, hdnone⟩ := tryDirect_core env now lat ST B Q amount
  obtain ⟨-, -, hd⟩ := tryDirect_shape env now lat ST B Q amount
  rcases hd with ⟨ρ1, hr1, -, hc1⟩ | ⟨hr1, -, hc1, -⟩
  · have hsome : (tryDirectConversion env now lat ST B Q
        amount).1.rate.isSome = true := by rw [hr1]; rfl
    rw [if_pos hsome]
    refine ⟨by rw [hdcore.1, hSTtotal], fun _ => ⟨?_, ?_, ?_⟩,
      fun hcc => ?_⟩
    · rw [hdcore.2.1, hSTsucc]
    · rw [hdcore.2.2.1, hSTfb]
    · rw [hdcore.2.2.2, hSTavg]
    · exfalso
      rcases hcc with h' | h' <;> rw [hc1] at h' <;> norm_num at h'
  · have hn1 : ¬((tryDirectConversion env now lat ST B Q
        amount).1.rate.isSome = true) := by rw [hr1]; simp
    rw [if_neg hn1]
    have hcore1 : statsCore ST.stats
        (tryDirectConversion env now lat ST B Q amount).2.stats :=
      hdnone hr1
    obtain ⟨-, -, hs⟩ := trySingle_shape env now lat
      (tryDirectConversion env now lat ST B Q amount).2 B Q amount
    have hcore2 := statsCore_trans hcore1
      (trySingle_core env now lat
        (tryDirectConversion env now lat ST B Q amount).2 B Q amount)
    rcases hs with ⟨ρ2, hr2, -, hc2, -, -, -⟩ | ⟨hr2, -, hc2, -⟩
    · have hsome2 : (trySinglePivotConversion env now lat
          (tryDirectConversion env now lat ST B Q amount).2 B Q
          amount).1.rate.isSome = true := by rw [hr2]; rfl
      rw [if_pos hsome2]
      refine ⟨by rw [hcore2.1, hSTtotal], fun _ => ⟨?_, ?_, ?_⟩,
        fun hcc => ?_⟩
      · rw [hcore2.2.1, hSTsucc]
      · rw [hcore2.2.2.1, hSTfb]
      · rw [hcore2.2.2.2.1, hSTavg]
      · exfalso
        rcases hcc with h' | h' <;> rw [hc2] at h' <;> norm_num at h'
    · have hn2 : ¬((trySinglePivotConversion env now lat
          (tryDirectConversion env now lat ST B Q amount).2 B Q
          amount).1.rate.isSome = true) := by rw [hr2]; simp
      rw [if_neg hn2]
      obtain ⟨-, -, -, ht⟩ := tryDouble_shape env now lat
        (trySinglePivotConversion env now lat
          (tryDirectConversion env now lat ST B Q amount).2 B Q amount).2
        B Q amount
      have hcore3 := statsCore_trans hcore2
        (tryDouble_core env now lat
          (trySinglePivotConversion env now lat
            (tryDirectConversion env now lat ST B Q amount).2 B Q
            amount).2 B Q amount)
      rcases ht with ⟨ρ3, hr3, -, hc3, -⟩ | ⟨hr3, -, hc3⟩
      · have hsome3 : (tryDoublePivotConversion env now lat
            (trySinglePivotConversion env now lat
              (tryDirectConversion env now lat ST B Q amount).2 B Q
              amount).2 B Q amount).1.rate.isSome = true := by
          rw [hr3]; rfl
        rw [if_pos hsome3]
        refine ⟨by rw [hcore3.1, hSTtotal], fun _ => ⟨?_, ?_, ?_⟩,
          fun hcc => ?_⟩
        · rw [hcore3.2.1, hSTsucc]
        · rw [hcore3.2.2.1, hSTfb]
        · rw [hcore3.2.2.2.1, hSTavg]
        · exfalso
          rcases hcc with h' | h' <;> rw [hc3] at h' <;> norm_num at h'
      · have hn3 : ¬((tryDoublePivotConversion env now lat
            (trySinglePivotConversion env now lat
              (tryDirectConversion env now lat ST B Q amount).2 B Q
              amount).2 B Q amount).1.rate.isSome = true) := by
          rw [hr3]; simp
        rw [if_neg hn3]
        dsimp only
        obtain ⟨hflat, ρ4, hr4, -, hc4⟩ := fallback_shape env now lat
          (tryDoublePivotConversion env now lat
            (trySinglePivotConversion env now lat
              (tryDirectConversion env now lat ST B Q amount).2 B Q
              amount).2 B Q amount).2 B Q amount
        have hfstats := fallbackConversion_stats env now lat
          (tryDoublePivotConversion env now lat
            (trySinglePivotConversion env now lat
              (tryDirectConversion env now lat ST B Q amount).2 B Q
              amount).2 B Q amount).2 B Q amount
        obtain ⟨hf1, hf2, hf3, hf4, hf5⟩ := finalizeStats_fields
          (fallbackConversion env now lat
            (tryDoublePivotConversion env now lat
              (trySinglePivotConversion env now lat
                (tryDirectConversion env now lat ST B Q amount).2 B Q
                amount).2 B Q amount).2 B Q amount).1
          (fallbackConversion env now lat
            (tryDoublePivotConversion env now lat
              (trySinglePivotConversion env now lat
                (tryDirectConversion env now lat ST B Q amount).2 B Q
                amount).2 B Q amount).2 B Q amount).2.stats
        have hrsome : (fallbackConversion env now lat
            (tryDoublePivotConversion env now lat
              (trySinglePivotConversion env now lat
                (tryDirectConversion env now lat ST B Q amount).2 B Q
                amount).2 B Q amount).2 B Q amount).1.rate.isSome =
            true := by rw [hr4]; rfl
        refine ⟨?_, fun hcc => ?_, fun _ => ⟨hrsome, ?_, ?_, ?_, ?_⟩⟩
        · rw [hf1, hfstats, hcore3.1, hSTtotal]
        · exfalso
          rcases hc4 with ⟨hc4, -, -⟩ | ⟨hc4, -, -⟩ <;>
            rcases hcc with h' | h' | h' <;> rw [hc4] at h' <;>
              norm_num at h'
        · rw [hf2, hfstats, hcore3.2.1, hSTsucc, hrsome, if_pos rfl]
        · rw [hf3, hfstats, hcore3.2.2.2.2, hSTch]
        · rw [hf4, hfstats, hcore3.2.2.1, hSTfb]
        · rw [hf5, hfstats, hcore3.2.2.2.1, hSTavg, hcore3.1, hSTtotal,
            hflat]
          push_cast
          ring_nf

/-- C1 counterexample: a terminal outcome with a non-null rate (USD→EUR
succeeds via the direct strategy with rate 2) leaves
`successful_conversions` at 0 and `avg_latency` at 0, although the claim
requires the increment and the running mean (here `(0*(1-1)+10)/1 = 10`). -/
theorem c1_counterexample :
    (convert envFiatDirect 0 10 emptyState "USD" "EUR" 1).1.rate = some 2 ∧
      (convert envFiatDirect 0 10 emptyState "USD" "EUR"
        1).2.stats.total_conversions = 1 ∧
      (convert envFiatDirect 0 10 emptyState "USD" "EUR"
        1).2.stats.successful_conversions = 0 ∧
      (convert envFiatDirect 0 10 emptyState "USD" "EUR"
        1).2.stats.avg_latency = 0 := by
  with_unfolding_all decide

/-- C1 witness: a fallback-path conversion (unknown pair, estimated rate)
updates the success, fallback and latency stats as the amended claim
states. -/
theorem c1_witness :
    (convert envBare 0 5 emptyState "BTC" "USD" 1).1.rate.isSome = true ∧
      (convert envBare 0 5 emptyState "BTC" "USD"
            1).2.stats.successful_conversions =
          emptyState.stats.successful_conversions + 1 ∧
      (convert envBare 0 5 emptyState "BTC" "USD" 1).2.stats.cache_hits =
        emptyState.stats.cache_hits +
          (if (convert envBare 0 5 emptyState "BTC" "USD" 1).1.cached
           then 1 else 0) ∧
      (convert envBare 0 5 emptyState "BTC" "USD"
            1).2.stats.fallback_uses =
          emptyState.stats.fallback_uses +
            (if (convert envBare 0 5 emptyState "BTC" "USD" 1).1.method =
                ConversionMethod.fallback then 1 else 0) ∧
      (convert envBare 0 5 emptyState "BTC" "USD" 1).2.stats.avg_latency =
        (emptyState.stats.avg_latency *
            (emptyState.stats.total_conversions : ℚ) + 5) /
          ((emptyState.stats.total_conversions : ℚ) + 1) :=
  (c1_stats_update_on_fallback_only envBare 0 5 emptyState "BTC" "USD" 1
      (by with_unfolding_all decide)).2.2
    (Or.inr (by with_unfolding_all decide))

/-! ### C8: idempotence within the cache window -/

/-- A live `direct:BASE:QUOTE` cache entry makes the direct strategy return
it immediately. -/
theorem tryDirect_hit_eq {env : Env} {now lat : ℚ} {st : EState}
    {B Q : String} {amount r : ℚ}
    (h : (FastCache.get st.cache env.cacheTTL now
        ("direct:" ++ B ++ ":" ++ Q)).1 = some r) :
    tryDirectConversion env now lat st B Q amount =
      ({ pair := B ++ "/" ++ Q, method := ConversionMethod.direct,
         rate := some r, amount := some (amount * r), confidence := 1,
         latency_ms := lat, cached := true },
       ⟨(FastCache.get st.cache env.cacheTTL now
          ("direct:" ++ B ++ ":" ++ Q)).2,
        { st.stats with cache_hits := st.stats.cache_hits + 1 }⟩) := by
  simp only [tryDirectConversion, h]

/-- A direct-strategy result that is fresh (not cached) and successful can
only come from the fetch path: the cache was missed and the fetched rate
was stored under the `direct:` key. -/
theorem tryDirect_fetch_inv {env : Env} {now lat : ℚ} {st : EState}
    {B Q : String} {amount ρ : ℚ}
    (hc : (tryDirectConversion env now lat st B Q amount).1.cached = false)
    (hr : (tryDirectConversion env now lat st B Q amount).1.rate = some ρ) :
    (FastCache.get st.cache env.cacheTTL now
        ("direct:" ++ B ++ ":" ++ Q)).1 = none ∧
      (tryDirectConversion env now lat st B Q amount).2.cache =
        FastCache.set
          (FastCache.get st.cache env.cacheTTL now
            ("direct:" ++ B ++ ":" ++ Q)).2
          env.cacheTTL now ("direct:" ++ B ++ ":" ++ Q) ρ 60 := by
  rcases hg : (FastCache.get st.cache env.cacheTTL now
      ("direct:" ++ B ++ ":" ++ Q)).1 with _ | r
  · refine ⟨rfl, ?_⟩
    simp only [tryDirectConversion, hg] at hr ⊢
    rcases hf : (fetchRateData env st.stats B Q).1 with _ | c
    · rw [hf] at hr
      exact absurd hr (by simp)
    · by_cases h0 : c = 0
      · simp only [hf] at hr
        rw [if_pos h0] at hr
        simp at hr
      · simp only [hf] at hr ⊢
        rw [if_neg h0] at hr ⊢
        obtain rfl : c = ρ := by simpa using hr
        rfl
  · exfalso
    rw [tryDirect_hit_eq hg] at hc
    exact absurd hc (by simp)

/-- A non-degenerate `convert` whose result carries method `direct` and a
non-null rate returned from the direct strategy. -/
theorem convert_direct_eq {env : Env} {now lat : ℚ} {st : EState}
    {b q : String} {amount ρ : ℚ}
    (hbq : b.toUpper ≠ q.toUpper)
    (hm : (convert env now lat st b q amount).1.method =
      ConversionMethod.direct)
    (hr : (convert env now lat st b q amount).1.rate = some ρ) :
    convert env now lat st b q amount =
      tryDirectConversion env now lat
        { st with stats := { st.stats with
            total_conversions := st.stats.total_conversions + 1 } }
        b.toUpper q.toUpper amount := by
  simp only [convert] at hm hr ⊢
  rw [if_neg hbq] at hm hr ⊢
  by_cases hd : (tryDirectConversion env now lat
      { st with stats := { st.stats with
          total_conversions := st.stats.total_conversions + 1 } }
      b.toUpper q.toUpper amount).1.rate.isSome = true
  · rw [if_pos hd]
  · exfalso
    rw [if_neg hd] at hm hr
    obtain ⟨-, -, hs⟩ := trySingle_shape env now lat
      (tryDirectConversion env now lat
        { st with stats := { st.stats with
            total_conversions := st.stats.total_conversions + 1 } }
        b.toUpper q.toUpper amount).2 b.toUpper q.toUpper amount
    by_cases hs1 : (trySinglePivotConversion env now lat
        (tryDirectConversion env now lat
          { st with stats := { st.stats with
              total_conversions := st.stats.total_conversions + 1 } }
          b.toUpper q.toUpper amount).2 b.toUpper q.toUpper
        amount).1.rate.isSome = true
    · rw [if_pos hs1] at hm
      rcases hs with ⟨ρ', -, -, -, hnd, -, -⟩ | ⟨hrn, -, -, -⟩
      · exact hnd hm
      · rw [hrn] at hs1
        exact absurd hs1 (by simp)
    · rw [if_neg hs1] at hm hr
      obtain ⟨-, -, hmt, -⟩ := tryDouble_shape env now lat
        (trySinglePivotConversion env now lat
          (tryDirectConversion env now lat
            { st with stats := { st.stats with
                total_conversions := st.stats.total_conversions + 1 } }
            b.toUpper q.toUpper amount).2 b.toUpper q.toUpper amount).2
        b.toUpper q.toUpper amount
      by_cases ht1 : (tryDoublePivotConversion env now lat
          (trySinglePivotConversion env now lat
            (tryDirectConversion env now lat
              { st with stats := { st.stats with
                  total_conversions := st.stats.total_conversions + 1 } }
              b.toUpper q.toUpper amount).2 b.toUpper q.toUpper amount).2
          b.toUpper q.toUpper amount).1.rate.isSome = true
      · rw [if_pos ht1] at hm
        rw [hmt] at hm
        exact absurd hm (by simp)
      · rw [if_neg ht1] at hm
        obtain ⟨-, ρ'', -, -, hcc⟩ := fallback_shape env now lat
          (tryDoublePivotConversion env now lat
            (trySinglePivotConversion env now lat
              (tryDirectConversion env now lat
                { st with stats := { st.stats with
                    total_conversions := st.stats.total_conversions + 1 } }
                b.toUpper q.toUpper amount).2 b.toUpper q.toUpper
              amount).2 b.toUpper q.toUpper amount).2
          b.toUpper q.toUpper amount
        have hm' : (fallbackConversion env now lat
            (tryDoublePivotConversion env now lat
              (trySinglePivotConversion env now lat
                (tryDirectConversion env now lat
                  { st with stats := { st.stats with
                      total_conversions :=
                        st.stats.total_conversions + 1 } }
                  b.toUpper q.toUpper amount).2 b.toUpper q.toUpper
                amount).2 b.toUpper q.toUpper amount).2
            b.toUpper q.toUpper amount).1.method =
            ConversionMethod.direct := hm
        rcases hcc with ⟨-, -, hmm⟩ | ⟨-, -, hmm⟩ <;> rw [hmm] at hm' <;>
          exact absurd hm' (by simp)

/-- Claim C8 (amended): if a non-degenerate `convert` call returns a fresh
direct-strategy rate (method `direct`, `cached = false`), then a second call
for the same pair within the global cache TTL returns the same rate and this
time with `cached = true`, served from the `direct:` cache entry the first
call stored. -/
theorem c8_direct_idempotent (env : Env) (t1 t2 lat1 lat2 : ℚ)
    (st : EState) (b q : String) (amount ρ : ℚ)
    (hbq : b.toUpper ≠ q.toUpper)
    (hm : (convert env t1 lat1 st b q amount).1.method =
      ConversionMethod.direct)
    (hc : (convert env t1 lat1 st b q amount).1.cached = false)
    (hr : (convert env t1 lat1 st b q amount).1.rate = some ρ)
    (ht : t1 ≤ t2) (hwin : t2 - t1 < env.cacheTTL) :
    (convert env t2 lat2 (convert env t1 lat1 st b q amount).2 b q
        amount).1.rate = some ρ ∧
      (convert env t2 lat2 (convert env t1 lat1 st b q amount).2 b q
        amount).1.cached = true := by
  have h1 := convert_direct_eq hbq hm hr
  rw [h1] at hc hr ⊢
  obtain ⟨-, hcache⟩ := tryDirect_fetch_inv hc hr
  have hget : (FastCache.get
      (tryDirectConversion env t1 lat1
        { st with stats := { st.stats with
            total_conversions := st.stats.total_conversions + 1 } }
        b.toUpper q.toUpper amount).2.cache env.cacheTTL t2
      ("direct:" ++ b.toUpper ++ ":" ++ q.toUpper)).1 = some ρ := by
    rw [hcache, get_set_fresh (by linarith) hwin]
  have hget2 : (FastCache.get
      ({ (tryDirectConversion env t1 lat1
            { st with stats := { st.stats with
                total_conversions := st.stats.total_conversions + 1 } }
            b.toUpper q.toUpper amount).2 with stats :=
          { (tryDirectConversion env t1 lat1
              { st with stats := { st.stats with
                  total_conversions := st.stats.total_conversions + 1 } }
              b.toUpper q.toUpper amount).2.stats with
            total_conversions :=
              (tryDirectConversion env t1 lat1
                { st with stats := { st.stats with
                    total_conversions :=
                      st.stats.total_conversions + 1 } }
                b.toUpper q.toUpper
                amount).2.stats.total_conversions + 1 } }).cache
      env.cacheTTL t2 ("direct:" ++ b.toUpper ++ ":" ++ q.toUpper)).1 =
      some ρ := hget
  have h2 := @tryDirect_hit_eq env t2 lat2
    { (tryDirectConversion env t1 lat1
        { st with stats := { st.stats with
            total_conversions := st.stats.total_conversions + 1 } }
        b.toUpper q.toUpper amount).2 with stats :=
      { (tryDirectConversion env t1 lat1
          { st with stats := { st.stats with
              total_conversions := st.stats.total_conversions + 1 } }
          b.toUpper q.toUpper amount).2.stats with
        total_conversions :=
          (tryDirectConversion env t1 lat1
            { st with stats := { st.stats with
                total_conversions := st.stats.total_conversions + 1 } }
            b.toUpper q.toUpper amount).2.stats.total_conversions + 1 } }
    b.toUpper q.toUpper amount ρ hget2
  have hsome2 : (tryDirectConversion env t2 lat2
      { (tryDirectConversion env t1 lat1
          { st with stats := { st.stats with
              total_conversions := st.stats.total_conversions + 1 } }
          b.toUpper q.toUpper amount).2 with stats :=
        { (tryDirectConversion env t1 lat1
            { st with stats := { st.stats with
                total_conversions := st.stats.total_conversions + 1 } }
            b.toUpper q.toUpper amount).2.stats with
          total_conversions :=
            (tryDirectConversion env t1 lat1
              { st with stats := { st.stats with
                  total_conversions := st.stats.total_conversions + 1 } }
              b.toUpper q.toUpper
              amount).2.stats.total_conversions + 1 } }
      b.toUpper q.toUpper amount).1.rate.isSome = true := by
    rw [h2]
    rfl
  constructor <;>
    · simp only [convert]
      rw [if_neg hbq, if_pos hsome2, h2]

/-- C8 counterexample: idempotence as claimed fails on the code.
(i) A pivot-bridged pair (EUR→GBP through USD) returns the same rate 6 on a
second call inside the TTL window, but with `cached = false` — the
single-pivot strategy reads its legs from the cache yet never sets the
cached flag.  (ii) With a pre-existing `direct:USD:EUR` entry of rate 5
written at time -299, the first call (time 0) returns the cached 5, and a
second call at time 2 — two seconds later, well inside any TTL window —
finds the entry expired, refetches, and returns the provider's 7: the two
calls do not even agree on the rate. -/
theorem c8_counterexample :
    ((convert envPivotOnly 0 5 emptyState "EUR" "GBP" 1).1.rate = some 6 ∧
      (convert envPivotOnly 1 5
          (convert envPivotOnly 0 5 emptyState "EUR" "GBP" 1).2 "EUR"
          "GBP" 1).1.rate = some 6 ∧
      (convert envPivotOnly 1 5
          (convert envPivotOnly 0 5 emptyState "EUR" "GBP" 1).2 "EUR"
          "GBP" 1).1.cached = false) ∧
    ((convert envStaleQuote 0 5 staleState "USD" "EUR" 1).1.rate =
        some 5 ∧
      (convert envStaleQuote 2 5
          (convert envStaleQuote 0 5 staleState "USD" "EUR" 1).2 "USD"
          "EUR" 1).1.rate = some 7) := by
  with_unfolding_all decide

/-- C8 witness: a fresh direct fetch (USD/EUR = 7 at time 0) followed two
seconds later by a second call that returns the same rate from cache. -/
theorem c8_witness :
    (convert envStaleQuote 2 6
        (convert envStaleQuote 0 5 emptyState "USD" "EUR" 1).2 "USD" "EUR"
        1).1.rate = some 7 ∧
      (convert envStaleQuote 2 6
        (convert envStaleQuote 0 5 emptyState "USD" "EUR" 1).2 "USD" "EUR"
        1).1.cached = true :=
  c8_direct_idempotent envStaleQuote 0 2 5 6 emptyState "USD" "EUR" 1 7
    (by with_unfolding_all decide) (by with_unfolding_all decide)
    (by with_unfolding_all decide) (by with_unfolding_all decide)
    (by norm_num) (by with_unfolding_all decide)

end WebOxy
